import Mathlib

/-!
Verification development for a minimal peer-to-peer broadcast chat node
(`src/node.rs`).  The node composes a floodsub broadcast overlay with mDNS
peer discovery inside a custom `MyBehaviour`, and drives a select loop over
three event sources: stdin lines, swarm events, and a termination signal.

The embedding below translates the behaviour handlers, the startup sequence
of `run`, and one iteration of the main loop into pure Lean functions.
External collaborators (the libp2p floodsub primitive, the tokio line
reader) are modelled from the interface the specification assigns to them;
everything else is translated directly from the source.
-/

namespace MeshNode

/-- Peer identifiers, modelling `libp2p::PeerId` as an abstract identifier. -/
abbrev PeerId := ℕ

/-- Network addresses attached to discovery events (`Multiaddr`), abstract. -/
abbrev Multiaddr := ℕ

/-- A floodsub topic (`floodsub::Topic`), identified by its string name. -/
abbrev Topic := String

/-- Raw message payload bytes (`Vec<u8>`). -/
abbrev Bytes := List UInt8

/-- An opaque I/O or library error carried by fallible external calls. -/
structure IOErr where
  msg : String
  deriving DecidableEq

/-- The state of the mDNS discovery behaviour that the node code observes:
its current live set, queried through `Mdns::has_node`. -/
structure Mdns where
  liveSet : Finset PeerId
  deriving DecidableEq

/-- `Mdns::has_node`: whether the discovery mechanism currently lists the
peer in its own membership set. -/
def Mdns.hasNode (m : Mdns) (p : PeerId) : Bool :=
  decide (p ∈ m.liveSet)

/-- The slice of `Floodsub` state the node manipulates: the local peer id,
the partial view of broadcast recipients (`target_peers`), the local topic
subscriptions, and the set of peers with an established connection. -/
structure Floodsub where
  localPeerId : PeerId
  targetPeers : Finset PeerId
  subscribedTopics : List Topic
  connectedPeers : Finset PeerId
  deriving DecidableEq

/-- `Floodsub::new(peer_id)`: fresh overlay state with an empty partial view
and no subscriptions. -/
def Floodsub.new (p : PeerId) : Floodsub :=
  { localPeerId := p, targetPeers := ∅, subscribedTopics := [], connectedPeers := ∅ }

/-- Modelled from the spec: `addToView` of the external broadcast overlay
(`Floodsub::add_node_to_partial_view`) inserts the peer into the partial
view; idempotent. -/
def Floodsub.addNodeToPartialView (fs : Floodsub) (p : PeerId) : Floodsub :=
  { fs with targetPeers := insert p fs.targetPeers }

/-- Modelled from the spec: `removeFromView` of the external broadcast
overlay (`Floodsub::remove_node_from_partial_view`) removes the peer from
the partial view; idempotent. -/
def Floodsub.removeNodeFromPartialView (fs : Floodsub) (p : PeerId) : Floodsub :=
  { fs with targetPeers := fs.targetPeers.erase p }

/-- Modelled from the spec: `subscribe(topic)` of the external broadcast
overlay records interest in the topic, idempotently. -/
def Floodsub.subscribe (fs : Floodsub) (t : Topic) : Floodsub :=
  if t ∈ fs.subscribedTopics then fs
  else { fs with subscribedTopics := t :: fs.subscribedTopics }

/-- The custom network behaviour combining floodsub and mDNS
(struct `MyBehaviour`). -/
structure MyBehaviour where
  topic : Topic
  floodsub : Floodsub
  mdns : Mdns
  deriving DecidableEq

/-- `MdnsEvent`: discovery events, each carrying a list of
(peer, address) pairs. -/
inductive MdnsEvent
  | discovered (list : List (PeerId × Multiaddr))
  | expired (list : List (PeerId × Multiaddr))
  deriving DecidableEq

/-- `NetworkBehaviourEventProcess<MdnsEvent>::inject_event` for
`MyBehaviour`: on `Discovered`, add every listed peer to the floodsub
partial view; on `Expired`, remove a listed peer only when
`self.mdns.has_node` no longer reports it live. -/
def injectMdnsEvent (b : MyBehaviour) (ev : MdnsEvent) : MyBehaviour :=
  match ev with
  | .discovered list =>
      { b with floodsub :=
          list.foldl (fun fs pm => fs.addNodeToPartialView pm.1) b.floodsub }
  | .expired list =>
      { b with floodsub :=
          list.foldl (fun fs pm =>
            if b.mdns.hasNode pm.1 then fs
            else fs.removeNodeFromPartialView pm.1) b.floodsub }

/-- One observable discovery step: the mDNS live set as it stands when the
event is injected, together with the event itself.  The live set evolves
inside the external mDNS mechanism between events, so each step records the
snapshot the handler will query. -/
structure MdnsStep where
  live : Finset PeerId
  event : MdnsEvent
  deriving DecidableEq

/-- Inject one discovery event with the mDNS state it arrives under. -/
def processStep (b : MyBehaviour) (s : MdnsStep) : MyBehaviour :=
  injectMdnsEvent { b with mdns := ⟨s.live⟩ } s.event

/-- Inject a whole sequence of discovery events, in order. -/
def processTrace (b : MyBehaviour) (tr : List MdnsStep) : MyBehaviour :=
  tr.foldl processStep b

/-- The peers mentioned by a discovery event payload. -/
def peersOf (l : List (PeerId × Multiaddr)) : List PeerId :=
  l.map Prod.fst

/-- Scan a reversed trace (most recent step first) for the verdict the
specification assigns to peer `p`: `some true` when the most recent
relevant step is a `Discovered` naming `p`, `some false` when it is an
accepted `Expired` naming `p` (accepted means the mDNS live set recorded in
the step no longer contains `p`), and `none` when no step decides `p`.
Rejected `Expired` steps (live set still contains `p`) are skipped, as the
specification demands. -/
def viewVerdict (p : PeerId) : List MdnsStep → Option Bool
  | [] => none
  | s :: earlier =>
    match s.event with
    | .discovered l => if p ∈ peersOf l then some true else viewVerdict p earlier
    | .expired l =>
        if p ∈ peersOf l ∧ p ∉ s.live then some false else viewVerdict p earlier

/-- The specification's membership predicate for the partial view: peer `p`
was most recently discovered and no accepted expiry followed. -/
def specMem (tr : List MdnsStep) (p : PeerId) : Bool :=
  (viewVerdict p tr.reverse).getD false

lemma mem_fold_add (l : List (PeerId × Multiaddr)) (fs : Floodsub) (p : PeerId) :
    p ∈ (l.foldl (fun fs pm => fs.addNodeToPartialView pm.1) fs).targetPeers ↔
      p ∈ peersOf l ∨ p ∈ fs.targetPeers := by
  induction l generalizing fs with
  | nil => simp [peersOf]
  | cons hd tl ih =>
      rw [List.foldl_cons, ih]
      simp only [peersOf, List.map_cons, List.mem_cons,
        Floodsub.addNodeToPartialView, Finset.mem_insert]
      tauto

lemma mem_fold_remove (live : Mdns) (l : List (PeerId × Multiaddr))
    (fs : Floodsub) (p : PeerId) :
    p ∈ (l.foldl (fun fs pm =>
        if live.hasNode pm.1 then fs
        else fs.removeNodeFromPartialView pm.1) fs).targetPeers ↔
      p ∈ fs.targetPeers ∧ ¬(p ∈ peersOf l ∧ p ∉ live.liveSet) := by
  induction l generalizing fs with
  | nil => simp [peersOf]
  | cons hd tl ih =>
      rw [List.foldl_cons]
      simp only [peersOf, List.map_cons, List.mem_cons]
      by_cases hlive : live.hasNode hd.1
      · rw [if_pos hlive]
        rw [ih]
        simp only [Mdns.hasNode, decide_eq_true_eq] at hlive
        simp only [peersOf]
        constructor
        · rintro ⟨hfs, hno⟩
          refine ⟨hfs, ?_⟩
          rintro ⟨hp | hp, hnl⟩
          · exact hnl (hp ▸ hlive)
          · exact hno ⟨hp, hnl⟩
        · rintro ⟨hfs, hno⟩
          exact ⟨hfs, fun ⟨hp, hnl⟩ => hno ⟨Or.inr hp, hnl⟩⟩
      · rw [if_neg hlive]
        rw [ih]
        simp only [Mdns.hasNode, decide_eq_true_eq] at hlive
        simp only [Floodsub.removeNodeFromPartialView, Finset.mem_erase, peersOf]
        constructor
        · rintro ⟨⟨hne, hfs⟩, hno⟩
          refine ⟨hfs, ?_⟩
          rintro ⟨hp | hp, hnl⟩
          · exact hne hp
          · exact hno ⟨hp, hnl⟩
        · rintro ⟨hfs, hno⟩
          refine ⟨⟨?_, hfs⟩, fun ⟨hp, hnl⟩ => hno ⟨Or.inr hp, hnl⟩⟩
          intro hp
          exact hno ⟨Or.inl hp, hp ▸ hlive⟩

lemma processTrace_mem (tr : List MdnsStep) (b : MyBehaviour) (p : PeerId) :
    p ∈ (processTrace b tr).floodsub.targetPeers ↔
      (viewVerdict p tr.reverse).getD (decide (p ∈ b.floodsub.targetPeers)) = true := by
  induction tr using List.reverseRecOn generalizing b with
  | nil => simp [processTrace, viewVerdict]
  | append_singleton tr s ih =>
      have hfold : processTrace b (tr ++ [s]) = processStep (processTrace b tr) s := by
        simp [processTrace, List.foldl_append]
      rw [hfold]
      have hrev : (tr ++ [s]).reverse = s :: tr.reverse := by
        simp
      rw [hrev]
      cases hev : s.event with
      | discovered l =>
          simp only [processStep, injectMdnsEvent, hev, viewVerdict]
          rw [mem_fold_add]
          by_cases hp : p ∈ peersOf l
          · rw [if_pos hp]
            simp [hp]
          · rw [if_neg hp]
            simp only [hp, false_or]
            exact ih b
      | expired l =>
          simp only [processStep, injectMdnsEvent, hev, viewVerdict]
          rw [mem_fold_remove]
          by_cases hacc : p ∈ peersOf l ∧ p ∉ s.live
          · rw [if_pos hacc]
            simp only [Option.getD_some]
            constructor
            · rintro ⟨_, hno⟩
              exact absurd hacc hno
            · intro hfalse
              exact absurd hfalse (by simp)
          · rw [if_neg hacc]
            rw [← ih b]
            constructor
            · rintro ⟨hmem, _⟩
              exact hmem
            · intro hmem
              exact ⟨hmem, hacc⟩

/-- C1.  After any sequence of mDNS discovery events processed by
`inject_event`, starting from a freshly constructed behaviour (empty
partial view), a peer `p` is in the floodsub partial view if and only if
the most recent effective discovery event about `p` was `Discovered` and no
subsequent `Expired` event for `p` was accepted — where an `Expired` event
for `p` is accepted exactly when the mDNS live set at injection time no
longer contains `p` (rejected expiries are skipped, per the claim's
acceptance clause).  In particular an `Expired` for a never-discovered peer
is a no-op: the verdict defaults to absent. -/
theorem mdns_partial_view_invariant (peerId : PeerId) (m0 : Mdns)
    (t : Topic) (tr : List MdnsStep) (p : PeerId) :
    p ∈ (processTrace ⟨t, Floodsub.new peerId, m0⟩ tr).floodsub.targetPeers ↔
      specMem tr p = true := by
  rw [processTrace_mem]
  simp [specMem, Floodsub.new]

/-- The Unicode replacement character U+FFFD emitted for invalid input. -/
def replacementChar : Char := Char.ofNat 0xFFFD

/-- Is the byte a UTF-8 continuation byte (0x80 to 0xBF)? -/
def isCont (b : UInt8) : Bool := 0x80 ≤ b && b ≤ 0xBF

/-- Admissible second byte of a three-byte UTF-8 sequence headed by `b0`
(excluding overlong encodings and surrogate code points). -/
def utf8Second3Ok (b0 b1 : UInt8) : Bool :=
  if b0 = 0xE0 then 0xA0 ≤ b1 && b1 ≤ 0xBF
  else if b0 = 0xED then 0x80 ≤ b1 && b1 ≤ 0x9F
  else isCont b1

/-- Admissible second byte of a four-byte UTF-8 sequence headed by `b0`
(excluding overlong encodings and code points above U+10FFFF). -/
def utf8Second4Ok (b0 b1 : UInt8) : Bool :=
  if b0 = 0xF0 then 0x90 ≤ b1 && b1 ≤ 0xBF
  else if b0 = 0xF4 then 0x80 ≤ b1 && b1 ≤ 0x8F
  else isCont b1

/-- Code point of a two-byte UTF-8 sequence. -/
def utf8Cp2 (b0 b1 : UInt8) : ℕ :=
  (b0.toNat - 0xC0) * 64 + (b1.toNat - 0x80)

/-- Code point of a three-byte UTF-8 sequence. -/
def utf8Cp3 (b0 b1 b2 : UInt8) : ℕ :=
  (b0.toNat - 0xE0) * 4096 + (b1.toNat - 0x80) * 64 + (b2.toNat - 0x80)

/-- Code point of a four-byte UTF-8 sequence. -/
def utf8Cp4 (b0 b1 b2 b3 : UInt8) : ℕ :=
  (b0.toNat - 0xF0) * 262144 + (b1.toNat - 0x80) * 4096 +
    (b2.toNat - 0x80) * 64 + (b3.toNat - 0x80)

/-- Fuel-indexed UTF-8 decoding loop with lossy substitution, following the
maximal-subpart policy of `String::from_utf8_lossy`: each maximal valid
prefix of an invalid sequence is replaced by one replacement character and
decoding resumes at the offending byte.  Each step consumes at least one
input byte, so fuel equal to the input length decodes everything. -/
def utf8LossyGo : ℕ → List UInt8 → List Char
  | 0, _ => []
  | _, [] => []
  | fuel + 1, b0 :: rest =>
    if b0 ≤ 0x7F then
      Char.ofNat b0.toNat :: utf8LossyGo fuel rest
    else if 0xC2 ≤ b0 && b0 ≤ 0xDF then
      match rest with
      | [] => [replacementChar]
      | b1 :: rest2 =>
        if isCont b1 then Char.ofNat (utf8Cp2 b0 b1) :: utf8LossyGo fuel rest2
        else replacementChar :: utf8LossyGo fuel rest
    else if 0xE0 ≤ b0 && b0 ≤ 0xEF then
      match rest with
      | [] => [replacementChar]
      | b1 :: rest2 =>
        if utf8Second3Ok b0 b1 then
          match rest2 with
          | [] => [replacementChar]
          | b2 :: rest3 =>
            if isCont b2 then Char.ofNat (utf8Cp3 b0 b1 b2) :: utf8LossyGo fuel rest3
            else replacementChar :: utf8LossyGo fuel rest2
        else replacementChar :: utf8LossyGo fuel rest
    else if 0xF0 ≤ b0 && b0 ≤ 0xF4 then
      match rest with
      | [] => [replacementChar]
      | b1 :: rest2 =>
        if utf8Second4Ok b0 b1 then
          match rest2 with
          | [] => [replacementChar]
          | b2 :: rest3 =>
            if isCont b2 then
              match rest3 with
              | [] => [replacementChar]
              | b3 :: rest4 =>
                if isCont b3 then
                  Char.ofNat (utf8Cp4 b0 b1 b2 b3) :: utf8LossyGo fuel rest4
                else replacementChar :: utf8LossyGo fuel rest3
            else replacementChar :: utf8LossyGo fuel rest2
        else replacementChar :: utf8LossyGo fuel rest
    else
      replacementChar :: utf8LossyGo fuel rest

/-- `String::from_utf8_lossy`, as the list of decoded characters. -/
def utf8LossyChars (bs : Bytes) : List Char :=
  utf8LossyGo bs.length bs

/-- `String::from_utf8_lossy`: decode UTF-8, replacing every invalid
subsequence with U+FFFD.  Total: defined on every byte sequence. -/
def utf8Lossy (bs : Bytes) : String :=
  String.mk (utf8LossyChars bs)

/-- A floodsub message as carried by `FloodsubEvent::Message`. -/
structure FloodsubMessage where
  source : PeerId
  data : Bytes
  sequenceNumber : Bytes
  topics : List Topic
  deriving DecidableEq

/-- `FloodsubEvent`: message delivery plus subscription notifications. -/
inductive FloodsubEvent
  | message (m : FloodsubMessage)
  | subscribed (peer : PeerId) (topic : Topic)
  | unsubscribed (peer : PeerId) (topic : Topic)
  deriving DecidableEq

deriving instance DecidableEq for Except

/-- An observable side effect of the node: a line printed or logged to
local output, or a publish call handed to the broadcast overlay.  A publish
call records the topic, the payload, and the set of peers it is sent to. -/
inductive Output
  | received (text : String) (source : PeerId)
  | publishCall (topic : Topic) (payload : Bytes) (recipients : Finset PeerId)
  | logStdin (line : Except IOErr (Option String))
  | logNewEvent
  | logShutdown
  | logDone
  deriving DecidableEq

/-- `NetworkBehaviourEventProcess<FloodsubEvent>::inject_event` for
`MyBehaviour`: a `Message` event prints the lossily decoded payload with
its source; every other event does nothing.  The handler is a total
function: it cannot fail and never drops a `Message`. -/
def injectFloodsubEvent (b : MyBehaviour) (ev : FloodsubEvent) :
    MyBehaviour × List Output :=
  match ev with
  | .message m => (b, [Output.received (utf8Lossy m.data) m.source])
  | .subscribed _ _ => (b, [])
  | .unsubscribed _ _ => (b, [])

/-- C3.  Every inbound floodsub `Message` — whatever its payload bytes,
valid UTF-8 or not — is delivered to local output, lossily decoded,
together with the source peer address, and the behaviour state is left
unchanged; the handler is total, so it never fails and never drops a
message for encoding reasons.  The second conjunct exercises the lossy
decoding on a payload starting with an invalid byte (0xFF): the invalid
subsequence is substituted by U+FFFD and the rest still decodes. -/
theorem floodsub_message_delivered_lossy :
    (∀ (b : MyBehaviour) (m : FloodsubMessage),
        injectFloodsubEvent b (.message m) =
          (b, [Output.received (utf8Lossy m.data) m.source])) ∧
      utf8LossyChars [0xFF, 0x68, 0x69] = [replacementChar, 'h', 'i'] := by
  constructor
  · intro b m
    rfl
  · decide

/-- C9.  A `Subscribed` or `Unsubscribed` floodsub event produces no output
and leaves the whole behaviour state (topic, floodsub partial view and
subscriptions, mdns) unchanged. -/
theorem floodsub_non_message_noop :
    ∀ (b : MyBehaviour) (p : PeerId) (t : Topic),
      injectFloodsubEvent b (.subscribed p t) = (b, []) ∧
        injectFloodsubEvent b (.unsubscribed p t) = (b, []) := by
  intro b p t
  exact ⟨rfl, rfl⟩

/-- UTF-8 bytes of a string, as `str::as_bytes` produces them. -/
def strToBytes (s : String) : Bytes :=
  s.toUTF8.toList

/-- Modelled from the spec: `Floodsub::publish` of the external broadcast
overlay — synchronous, non-blocking, best-effort.  It sends the payload to
every peer currently in the partial view that is reachable over an
established connection; unconnected peers are silently skipped, with no
queuing and no retry, so the overlay state is returned unchanged and the
function is total (no failure path). -/
def Floodsub.publish (fs : Floodsub) (t : Topic) (payload : Bytes) :
    Floodsub × List Output :=
  (fs, [Output.publishCall t payload (fs.targetPeers ∩ fs.connectedPeers)])

/-- `MyBehaviour::publish`: publish the UTF-8 bytes of `msg` on the
behaviour's topic through floodsub. -/
def MyBehaviour.publish (b : MyBehaviour) (msg : String) :
    MyBehaviour × List Output :=
  let r := b.floodsub.publish b.topic (strToBytes msg)
  ({ b with floodsub := r.1 }, r.2)

/-- Modelled from the spec: the external line reader of the local input
stream surfaces each complete line with its trailing delimiter stripped — a
trailing line feed is removed, then a trailing carriage return. -/
def stripLineDelim (s : String) : String :=
  let cs := s.toList
  let cs1 := if cs.getLast? = some '\n' then cs.dropLast else cs
  let cs2 := if cs1.getLast? = some '\r' then cs1.dropLast else cs1
  String.mk cs2

/-- A fatal way out of the main loop: an I/O error propagated by the
try operator, or a panic raised by `expect`.  Either terminates the
process. -/
inductive LoopFatal
  | ioError (e : IOErr)
  | panic (msg : String)
  deriving DecidableEq

/-- One outcome of the three-way `select` race in the main loop: the next
stdin line result (`Ok None` is end-of-stream), the next swarm event
(opaque here; the loop only logs it), or the termination-signal future
resolving (with the registration result it carries). -/
inductive LoopEvent
  | stdinLine (line : Except IOErr (Option String))
  | swarmEvent (ev : Option ℕ)
  | sigterm (r : Except IOErr Unit)
  deriving DecidableEq

/-- The mutable state the main loop carries between iterations. -/
structure RunState where
  behaviour : MyBehaviour
  deriving DecidableEq

/-- Result of one loop iteration: continue with a new state, break out of
the loop, or die (error return or panic); each carries the outputs the
iteration produced, in order. -/
inductive IterResult
  | cont (st : RunState) (outs : List Output)
  | stopped (outs : List Output)
  | died (e : LoopFatal) (outs : List Output)
  deriving DecidableEq

/-- The outputs an iteration produced. -/
def IterResult.outputs : IterResult → List Output
  | .cont _ o => o
  | .stopped o => o
  | .died _ o => o

/-- One iteration of the main `select` loop of `run`.  A stdin result is
logged, then an error is propagated by the try operator, end-of-stream
panics with `Stdin closed`, and a line is published through the behaviour.
A swarm event is only logged.  The termination-signal branch ignores the
value the signal future resolved with, logs the shutdown intent and breaks. -/
def loopIter (st : RunState) (ev : LoopEvent) : IterResult :=
  match ev with
  | .stdinLine line =>
    match line with
    | .error e => .died (.ioError e) [Output.logStdin (.error e)]
    | .ok none => .died (.panic "Stdin closed") [Output.logStdin (.ok none)]
    | .ok (some msg) =>
        let r := st.behaviour.publish msg
        .cont ⟨r.1⟩ (Output.logStdin (.ok (some msg)) :: r.2)
  | .swarmEvent _ => .cont st [Output.logNewEvent]
  | .sigterm _ => .stopped [Output.logShutdown]

/-- How a run of the loop ended: still running (event source not yet
exhausted in this finite model), finished normally after a break (`run`
returns `Ok`), or terminated by a fatal condition. -/
inductive RunOutcome
  | running (st : RunState)
  | finished
  | failed (e : LoopFatal)
  deriving DecidableEq

/-- Drive the main loop over a finite prefix of `select` outcomes,
collecting outputs.  A break appends the final `Done.` log and finishes;
a fatal condition stops processing immediately; events after a break or a
fatal exit are never examined. -/
def runLoop (st : RunState) : List LoopEvent → List Output × RunOutcome
  | [] => ([], .running st)
  | ev :: rest =>
    match loopIter st ev with
    | .cont st2 outs =>
        let r := runLoop st2 rest
        (outs ++ r.1, r.2)
    | .stopped outs => (outs ++ [Output.logDone], .finished)
    | .died e outs => (outs, .failed e)

/-- The publish calls among a list of outputs, keeping topic and payload. -/
def publishCallsOf : List Output → List (Topic × Bytes)
  | [] => []
  | .publishCall t payload _ :: rest => (t, payload) :: publishCallsOf rest
  | _ :: rest => publishCallsOf rest

/-- A concrete behaviour as `MyBehaviour::new` builds it for peer 0 and an
empty mDNS live set, used to instantiate theorems with hypotheses. -/
def sampleBehaviour : MyBehaviour :=
  ⟨"chat", Floodsub.new 0, ⟨∅⟩⟩

/-- A concrete loop state over `sampleBehaviour`. -/
def sampleState : RunState :=
  ⟨sampleBehaviour⟩

/-- C2.  For every raw line successfully read from the local input stream
(the loop receives it with its trailing delimiter already stripped by the
line reader), one iteration of the main loop makes exactly one publish call,
on topic `chat`, whose payload is exactly the UTF-8 bytes of the stripped
line. -/
theorem stdin_line_published_once (st : RunState) (raw : String)
    (h : st.behaviour.topic = "chat") :
    publishCallsOf
        (loopIter st (.stdinLine (.ok (some (stripLineDelim raw))))).outputs =
      [("chat", strToBytes (stripLineDelim raw))] := by
  simp [loopIter, IterResult.outputs, MyBehaviour.publish, Floodsub.publish,
    publishCallsOf, h]

/-- Witness for C2 on the concrete input line `hello world` followed by a
line feed: exactly one publish call on `chat` carrying `hello world`. -/
theorem stdin_line_published_once_witness :
    publishCallsOf
        (loopIter sampleState
          (.stdinLine (.ok (some (stripLineDelim "hello world\n"))))).outputs =
      [("chat", strToBytes (stripLineDelim "hello world\n"))] :=
  stdin_line_published_once sampleState "hello world\n" rfl

/-- C4.  Whenever the termination-signal branch is taken — whatever result
the signal future resolved with and whatever state the loop is in — the
loop logs the shutdown intent and breaks immediately: the trailing events,
pending input reads included, are never processed, so no further publishes,
input logs or network-event logs appear and the run finishes normally. -/
theorem sigterm_breaks_immediately (st : RunState) (r : Except IOErr Unit)
    (rest : List LoopEvent) :
    runLoop st (.sigterm r :: rest) =
      ([Output.logShutdown, Output.logDone], .finished) := by
  rfl

/-- C5.  When the local input stream reaches end-of-stream (the line read
resolves to no line), the loop does not silently continue: the iteration
logs the read and dies with the `Stdin closed` panic, an unrecoverable
condition that terminates the process; trailing events are never
processed. -/
theorem stdin_eof_is_fatal (st : RunState) (rest : List LoopEvent) :
    runLoop st (.stdinLine (.ok none) :: rest) =
      ([Output.logStdin (.ok none)], .failed (.panic "Stdin closed")) := by
  rfl

/-- C6 counterexample.  The claim says a termination-signal wait that
resolves with an error (failed OS registration) is treated as fatal.  It is
not: the select branch binds the resolved value with a wildcard pattern, so
on a concrete registration error the loop logs the shutdown intent and
breaks, and the run finishes normally instead of failing. -/
theorem sigterm_error_not_fatal_cex :
    runLoop sampleState [.sigterm (.error ⟨"signal registration failed"⟩)] =
      ([Output.logShutdown, Output.logDone], .finished) ∧
      (runLoop sampleState
          [.sigterm (.error ⟨"signal registration failed"⟩)]).2 ≠
        RunOutcome.failed
          (.ioError ⟨"signal registration failed"⟩) := by
  constructor
  · rfl
  · decide

/-- C6 amended.  A termination-signal future that resolves with an error is
handled exactly like a fired signal: the resolved value is discarded, the
loop logs the shutdown intent and breaks, and the run finishes normally —
the failure of the signal wait is never surfaced as a fatal error. -/
theorem sigterm_error_treated_as_signal (st : RunState) (e : IOErr)
    (rest : List LoopEvent) :
    runLoop st (.sigterm (.error e) :: rest) =
      ([Output.logShutdown, Output.logDone], .finished) := by
  rfl

/-- C7.  Publishing is total and non-blocking by construction, and:
(i) with an empty partial view the publish call goes out to no peer and the
behaviour is unchanged — no error is raised; (ii) in general the behaviour
is returned unchanged (no queuing, no retry) and the recipients are exactly
the members of the partial view with an established connection, so
unreachable peers are silently skipped. -/
theorem publish_empty_view_harmless :
    (∀ (t : Topic) (pid : PeerId) (subs : List Topic)
        (conn : Finset PeerId) (m : Mdns) (msg : String),
        MyBehaviour.publish ⟨t, ⟨pid, ∅, subs, conn⟩, m⟩ msg =
          (⟨t, ⟨pid, ∅, subs, conn⟩, m⟩,
            [Output.publishCall t (strToBytes msg) ∅])) ∧
      ∀ (b : MyBehaviour) (msg : String),
        (b.publish msg).1 = b ∧
          (b.publish msg).2 =
            [Output.publishCall b.topic (strToBytes msg)
              (b.floodsub.targetPeers ∩ b.floodsub.connectedPeers)] := by
  constructor
  · intro t pid subs conn m msg
    simp [MyBehaviour.publish, Floodsub.publish]
  · intro b msg
    exact ⟨rfl, rfl⟩

/-- A node keypair (`identity::Keypair`), abstract. -/
abbrev Keypair := ℕ

/-- `PeerId::from(keys.public())`: the peer address derived from the public
half of the keypair, modelled as an abstract derivation. -/
def peerIdOfKeypair (k : Keypair) : PeerId := k

/-- The transport configuration `make_transport` assembles: a TCP config
with `nodelay` set, upgraded, authenticated with the keypair, multiplexed
and boxed. -/
structure Transport where
  keys : Keypair
  nodelay : Bool
  deriving DecidableEq

/-- `make_transport`: despite the `Result` return type, the body is a plain
`Ok` around the assembled configuration — there is no failure path. -/
def makeTransport (peerIdKeys : Keypair) : Except IOErr Transport :=
  .ok ⟨peerIdKeys, true⟩

/-- An error wrapped with `anyhow` context strings, outermost context
first. -/
structure CtxError where
  contexts : List String
  cause : IOErr
  deriving DecidableEq

/-- Wrap one more context layer around an error (`Context::context`). -/
def CtxError.addContext (ce : CtxError) (c : String) : CtxError :=
  { ce with contexts := c :: ce.contexts }

/-- `MyBehaviour::new`: create the fixed topic `chat`, start mDNS discovery
(the outcome of the external `Mdns::new` call is an input here; its failure
is wrapped with the `Creating mDNS node discovery behaviour` context),
build the floodsub overlay for the peer and subscribe it to the topic. -/
def MyBehaviour.new (peerId : PeerId) (mdnsRes : Except IOErr Mdns) :
    Except CtxError MyBehaviour :=
  let floodsubTopic : Topic := "chat"
  match mdnsRes with
  | .error e => .error ⟨["Creating mDNS node discovery behaviour"], e⟩
  | .ok mdns =>
      let behaviour : MyBehaviour := ⟨floodsubTopic, Floodsub.new peerId, mdns⟩
      .ok { behaviour with floodsub := behaviour.floodsub.subscribe floodsubTopic }

/-- The listen address literal passed to `Swarm::listen_on`: every local
interface, TCP, ephemeral port chosen by the operating system. -/
def listenAddrString : String := "/ip4/0.0.0.0/tcp/0"

/-- The outcomes of the external calls `run` makes during startup: the
generated keypair, the result of `Mdns::new`, the result of parsing the
listen address literal, and the result of `Swarm::listen_on`. -/
structure Env where
  keypair : Keypair
  mdnsNew : Except IOErr Mdns
  parseResult : Except IOErr String
  listenResult : Except IOErr Unit

/-- The externally visible startup steps of `run`, in the order the source
performs them. -/
inductive StartupStep
  | generateIdentity
  | buildTransport
  | createBehaviour
  | startListening
  deriving DecidableEq

/-- Everything `run` has in hand when the main loop begins. -/
structure StartedNode where
  peerId : PeerId
  transport : Transport
  behaviour : MyBehaviour
  listenAddr : String
  requestedListen : String
  deriving DecidableEq

/-- The startup phase of `run`, up to the start of the main loop: generate
the identity, build the transport (context `Creating libp2p transport`),
construct the behaviour (context `Creating node behaviour`), parse the
listen address literal (context `Parsing listening address`) and start
listening (context `Starting to listen`).  Returns the steps completed, in
order, together with either the started node or the first contextualised
error, which aborts startup before the main loop. -/
def startup (env : Env) : List StartupStep × Except CtxError StartedNode :=
  let peerId := peerIdOfKeypair env.keypair
  match makeTransport env.keypair with
  | .error e =>
      ([.generateIdentity], .error ⟨["Creating libp2p transport"], e⟩)
  | .ok transport =>
    match MyBehaviour.new peerId env.mdnsNew with
    | .error ce =>
        ([.generateIdentity, .buildTransport],
          .error (ce.addContext "Creating node behaviour"))
    | .ok behaviour =>
      match env.parseResult with
      | .error e =>
          ([.generateIdentity, .buildTransport, .createBehaviour],
            .error ⟨["Parsing listening address"], e⟩)
      | .ok addr =>
        match env.listenResult with
        | .error e =>
            ([.generateIdentity, .buildTransport, .createBehaviour],
              .error ⟨["Starting to listen"], e⟩)
        | .ok _ =>
            ([.generateIdentity, .buildTransport, .createBehaviour,
                .startListening],
              .ok ⟨peerId, transport, behaviour, addr, listenAddrString⟩)

/-- C10.  `make_transport` returns `Ok` for every input keypair: transport
construction has no failure path and never surfaces a configuration
error. -/
theorem make_transport_infallible :
    ∀ k : Keypair, makeTransport k = .ok ⟨k, true⟩ := by
  intro k
  rfl

/-- C8.  Startup performs its steps in order — generate identity, build
transport, construct the behaviour (which starts mDNS discovery and leaves
floodsub with topic `chat` subscribed), bind the transport to listen on the
all-interfaces ephemeral TCP address — and the failure of any fallible step
aborts startup with a descriptive context error before the main loop, with
no later step performed.  The conjuncts cover: full success (all four steps
in order, behaviour on topic `chat` with `chat` subscribed and the
requested listen address being the all-interfaces ephemeral literal), mDNS
failure, listen-address parse failure, and listen failure. -/
theorem startup_ordered_and_fail_fast :
    (∀ (k : Keypair) (m : Mdns) (a : String),
        startup ⟨k, .ok m, .ok a, .ok ()⟩ =
          ([.generateIdentity, .buildTransport, .createBehaviour,
              .startListening],
            .ok ⟨peerIdOfKeypair k, ⟨k, true⟩,
              ⟨"chat", (Floodsub.new (peerIdOfKeypair k)).subscribe "chat", m⟩,
              a, listenAddrString⟩) ∧
          ("chat" : Topic) ∈
            ((Floodsub.new (peerIdOfKeypair k)).subscribe "chat").subscribedTopics ∧
          listenAddrString = "/ip4/0.0.0.0/tcp/0") ∧
      (∀ (k : Keypair) (e : IOErr) (a : String),
        startup ⟨k, .error e, .ok a, .ok ()⟩ =
          ([.generateIdentity, .buildTransport],
            .error ⟨["Creating node behaviour",
              "Creating mDNS node discovery behaviour"], e⟩)) ∧
      (∀ (k : Keypair) (m : Mdns) (e : IOErr),
        startup ⟨k, .ok m, .error e, .ok ()⟩ =
          ([.generateIdentity, .buildTransport, .createBehaviour],
            .error ⟨["Parsing listening address"], e⟩)) ∧
      ∀ (k : Keypair) (m : Mdns) (a : String) (e : IOErr),
        startup ⟨k, .ok m, .ok a, .error e⟩ =
          ([.generateIdentity, .buildTransport, .createBehaviour],
            .error ⟨["Starting to listen"], e⟩) := by
  refine ⟨fun k m a => ⟨rfl, ?_, rfl⟩, fun k e a => rfl, fun k m e => rfl,
    fun k m a e => rfl⟩
  simp [Floodsub.subscribe, Floodsub.new]

end MeshNode
